import Mathlib

/-!
Shallow embedding of the core of `src/aiAgent.js` (class `DecentralizedAIAgent`):
the tool registry (`registerTool`, `executeTool`), the planner (`createPlan`),
the sequential plan executor (`executePlan` and its loop body), the reasoning
fallback (`executeReasoning`), the final report (`createFinalReport`), the
lifecycle entry point (`run`), and the built-in `nftCreate` tool handler.

JavaScript values flowing through the orchestrator are modelled by the
inductive `Json` (undefined, null, booleans, numbers, strings, arrays,
objects).  Thrown JavaScript errors are modelled by `JsError` (the `.name`
and `.message` of the thrown object); fallible code returns `Except JsError`.
External I/O (the OpenAI chat completions endpoint, `Math.random`, `uuid`)
is modelled by explicit oracle inputs: an `Oracle` record supplies the
outcome of each reasoning-service call, and random values are parameters.
Event emission (`this.emit`) is modelled by an explicit trace of `Ev` values
in emission order.
-/

set_option autoImplicit false

namespace AIAgent

/-- JavaScript values as they flow through the agent: `undefined`, `null`,
booleans, numbers (the source only ever produces integral data we reason
about), strings, arrays and plain objects (field lists; a later entry with
the same key shadows an earlier one, as in evaluated JS objects). -/
inductive Json where
  | undefined : Json
  | null : Json
  | bool (b : Bool) : Json
  | num (n : Int) : Json
  | str (s : String) : Json
  | arr (xs : List Json) : Json
  | obj (fs : List (String × Json)) : Json

/-- Thrown JavaScript error: its `.name` (constructor name, `"Error"` for
`new Error(...)`, `"TypeError"` for runtime type errors) and `.message`. -/
structure JsError where
  name : String
  message : String
  deriving DecidableEq, Repr

/-- Property lookup in an object field list: the LAST binding of a key wins
(matching evaluated JS object literals and repeated assignments). -/
def lastLookup (fs : List (String × Json)) (k : String) : Option Json :=
  fs.foldl (fun acc p => if p.1 = k then some p.2 else acc) none

/-- Key update for a string-keyed map (a JS `Map` via `set`, or a plain
object via `o[k] = v`): replaces the value in place if the key is present
(preserving insertion order), otherwise appends the new binding. -/
def mapSet {α : Type} (m : List (String × α)) (k : String) (v : α) : List (String × α) :=
  if m.any fun p => p.1 = k then
    m.map fun p => if p.1 = k then (k, v) else p
  else
    m ++ [(k, v)]

/-- Key lookup for a string-keyed map (`Map.get` / `Map.has`): maps built by
`mapSet` have unique keys, so the first match is the binding. -/
def mapGet {α : Type} (m : List (String × α)) (k : String) : Option α :=
  (m.find? fun p => p.1 = k).map Prod.snd

/-- JavaScript truthiness of a value. -/
def truthy : Json → Bool
  | .undefined => false
  | .null => false
  | .bool b => b
  | .num n => n ≠ 0
  | .str s => s ≠ ""
  | .arr _ => true
  | .obj _ => true

mutual

/-- JavaScript ToString of a value, as used for a computed property key
such as `results[step.id]`: `undefined ↦ "undefined"`, arrays join their
elements with commas (null/undefined elements become empty), objects
stringify to `"[object Object]"`. -/
def keyOf : Json → String
  | .undefined => "undefined"
  | .null => "null"
  | .bool b => if b then "true" else "false"
  | .num n => toString n
  | .str s => s
  | .arr xs => String.intercalate "," (arrElems xs)
  | .obj _ => "[object Object]"

/-- Stringification of array elements for `keyOf`: inside an array,
`null` and `undefined` print as the empty string. -/
def arrElems : List Json → List String
  | [] => []
  | x :: xs =>
    (match x with
     | .null => ""
     | .undefined => ""
     | y => keyOf y) :: arrElems xs

end

/-- Property access `v[k]` in JavaScript: throws a `TypeError` on `null`
and `undefined`, looks the key up on objects (absent keys give `undefined`),
and gives `undefined` on other values (primitives and arrays, for the keys
the source reads). -/
def jsGetField (v : Json) (k : String) : Except JsError Json :=
  match v with
  | .undefined => .error ⟨"TypeError", "Cannot read properties of undefined (reading " ++ k ++ ")"⟩
  | .null => .error ⟨"TypeError", "Cannot read properties of null (reading " ++ k ++ ")"⟩
  | .obj fs => .ok ((lastLookup fs k).getD .undefined)
  | _ => .ok .undefined

/-- Total variant of `jsGetField`, agreeing with it whenever the receiver is
neither `null` nor `undefined`; used only to STATE properties about keys of
steps that were successfully accessed. -/
def getFieldD (v : Json) (k : String) : Json :=
  match v with
  | .obj fs => (lastLookup fs k).getD .undefined
  | _ => .undefined

/-- Object spread `\x7b...v\x7d`: objects contribute their fields, strings
and arrays contribute index-keyed entries, all other values contribute
nothing. -/
def spreadFields : Json → List (String × Json)
  | .obj fs => fs
  | .str s => (s.toList.enum).map fun p => (toString p.1, Json.str p.2.toString)
  | .arr xs => (xs.enum).map fun p => (toString p.1, p.2)
  | _ => []

/-- Values accepted by a `for ... of` loop: arrays iterate their elements,
strings iterate their characters; everything else throws. -/
def iterableOf : Json → Option (List Json)
  | .arr xs => some xs
  | .str s => some (s.toList.map fun c => Json.str c.toString)
  | _ => none

/-- Tool definition as stored in the registry (`\x7bname, description,
handler\x7d`); the handler is an async function from a parameters object to
a result, modelled as a function that may throw. -/
structure ToolDef where
  name : String
  description : String
  handler : Json → Except JsError Json

/-- Registry `this.tools`: a JS `Map` from tool name to its definition. -/
abbrev Registry := List (String × ToolDef)

/-- Results map `results` built by `executePlan`: a plain object from step
id to step result. -/
abbrev Results := List (String × Json)

/-- Source `registerTool(toolDefinition)`: throws unless `name` and
`handler` are truthy (the handler is structurally present in this model, so
the check is on the name), then `this.tools.set(name, toolDefinition)`. -/
def registerTool (tools : Registry) (toolDefinition : ToolDef) : Except JsError Registry :=
  if toolDefinition.name = "" then
    .error ⟨"Error", "Tool must have a name and handler function"⟩
  else
    .ok (mapSet tools toolDefinition.name toolDefinition)

/-- Source `executeTool(toolName, parameters)`: throws `new Error("Tool not
found: ...")` when the name is unregistered; otherwise invokes the handler,
catching any exception it throws and converting it to the soft failure
`\x7bsuccess: false, error: message\x7d`. -/
def executeTool (tools : Registry) (toolName : String) (parameters : Json) : Except JsError Json :=
  match mapGet tools toolName with
  | none => .error ⟨"Error", "Tool not found: " ++ toolName⟩
  | some tool =>
    match tool.handler parameters with
    | .ok r => .ok r
    | .error e => .ok (.obj [("success", Json.bool false), ("error", Json.str e.message)])

/-- Task passed to `run`: the objective text and the (possibly undefined)
`walletAddress` merged into every tool invocation. -/
structure Task where
  objective : String
  walletAddress : Json

/-- Oracle for the external reasoning service (OpenAI chat completions).
`planCall` is the planning request of `createPlan`: the outer `Except` is
the network call itself (which may throw), the inner one is the outcome of
`JSON.parse` on the returned content (`.error` = `SyntaxError`, `.ok` = the
parsed value).  `reason` is the per-step call of `executeReasoning`, given
the step and the prior results serialized into the prompt; `summary` is the
call of `createFinalReport`. -/
structure Oracle where
  planCall : Except JsError (Except JsError Json)
  reason : Json → Results → Except JsError String
  summary : Task → Results → Except JsError String

/-- Source `executeReasoning(step, previousResults)`: sends the step and
previous results to the reasoning model and wraps the returned text as
`\x7bsuccess: true, reasoning: content\x7d`; a thrown network error
propagates. -/
def executeReasoning (o : Oracle) (step : Json) (previousResults : Results) : Except JsError Json :=
  match o.reason step previousResults with
  | .error e => .error e
  | .ok content => .ok (.obj [("success", Json.bool true), ("reasoning", Json.str content)])

/-- Events emitted via `this.emit`, in emission order. -/
inductive Ev where
  | taskStart (taskId : String) (objective : String) : Ev
  | stepStart (step : Json) : Ev
  | stepComplete (step : Json) (result : Json) : Ev
  | stepFailed (step : Json) (errMsg : String) : Ev
  | taskComplete (taskId : String) (result : Json) : Ev
  | taskFailed (taskId : String) (errMsg : String) : Ev

/-- Source `createFinalReport(task, results)`: asks the reasoning service
for a summary (a thrown error propagates) and returns `\x7bsuccess: true,
objective, summary, results\x7d`. -/
def createFinalReport (o : Oracle) (task : Task) (results : Results) : Except JsError Json :=
  match o.summary task results with
  | .error e => .error e
  | .ok content =>
    .ok (.obj [("success", Json.bool true), ("objective", Json.str task.objective),
               ("summary", Json.str content), ("results", Json.obj results)])

/-- Reasoning branch of the `executePlan` loop body (the `else` arm): calls
`executeReasoning(step, results)` and then reads `step.id` for the
assignment `results[step.id] = stepResult`.  The first component records
that a reasoning call with exactly these prior results was issued. -/
def reasoningBranch (o : Oracle) (step : Json) (results : Results) :
    Option (Json × Results) × Except JsError (Json × String) :=
  (some (step, results),
    match executeReasoning o step results with
    | .error e => .error e
    | .ok r =>
      match jsGetField step "id" with
      | .error e => .error e
      | .ok idV => .ok (r, keyOf idV))

/-- Body of the `for (const step of plan)` loop in `executePlan`, i.e. the
`try` block: evaluate `step.tool`; if it is a truthy value registered in the
tool map, call `executeTool(step.tool, \x7b...step.parameters,
walletAddress: task.walletAddress\x7d)`, otherwise fall back to
`executeReasoning(step, results)`; finally read `step.id` for the result
assignment.  Returns the possible reasoning-call record and either the
thrown error or the pair (stepResult, key of `step.id`). -/
def planStepBody (tools : Registry) (o : Oracle) (task : Task) (step : Json) (results : Results) :
    Option (Json × Results) × Except JsError (Json × String) :=
  match jsGetField step "tool" with
  | .error e => (none, .error e)
  | .ok (.str s) =>
    if s ≠ "" ∧ (mapGet tools s).isSome then
      (none,
        match jsGetField step "parameters" with
        | .error e => .error e
        | .ok pv =>
          match executeTool tools s
              (Json.obj (spreadFields pv ++ [("walletAddress", task.walletAddress)])) with
          | .error e => .error e
          | .ok r =>
            match jsGetField step "id" with
            | .error e => .error e
            | .ok idV => .ok (r, keyOf idV))
    else
      reasoningBranch o step results
  | .ok _ => reasoningBranch o step results

/-- Loop of `executePlan` over the step list, threading the `results`
object.  Produces the emitted step events in order, the list of
reasoning-fallback calls (step, prior results at the call), and either the
first thrown error (after emitting `stepFailed`, rethrown) or the final
results object. -/
def execSteps (tools : Registry) (o : Oracle) (task : Task) :
    List Json → Results → List Ev × List (Json × Results) × Except JsError Results
  | [], results => ([], [], .ok results)
  | step :: rest, results =>
    let pb := planStepBody tools o task step results
    match pb.2 with
    | .error e =>
      ([Ev.stepStart step, Ev.stepFailed step e.message], pb.1.toList, .error e)
    | .ok (r, key) =>
      let next := execSteps tools o task rest (mapSet results key r)
      (Ev.stepStart step :: Ev.stepComplete step r :: next.1,
       pb.1.toList ++ next.2.1, next.2.2)

/-- Source `executePlan(plan, task)`: iterates `for (const step of plan)`
(throwing `TypeError` if the plan is not iterable, e.g. the `undefined`
produced by a parsed response without a `steps` field) and finally calls
`createFinalReport(task, results)`. -/
def executePlan (tools : Registry) (o : Oracle) (task : Task) (plan : Json) :
    List Ev × List (Json × Results) × Except JsError Json :=
  match iterableOf plan with
  | none => ([], [], .error ⟨"TypeError", "plan is not iterable"⟩)
  | some steps =>
    let t := execSteps tools o task steps []
    (t.1, t.2.1,
      match t.2.2 with
      | .error e => .error e
      | .ok results => createFinalReport o task results)

/-- Source `createPlan(task)`: performs the planning request (a thrown
network error propagates untouched), then inside `try` parses the content
and reads `.steps` off the parsed value; any error thrown there is caught
and rethrown as `new Error("Failed to create plan: " + message)`.  Note
that a parsed OBJECT without a `steps` field does not throw: the property
read yields `undefined`, which is returned as the plan. -/
def createPlan (o : Oracle) : Except JsError Json :=
  match o.planCall with
  | .error e => .error e
  | .ok parseOutcome =>
    match
      ((match parseOutcome with
        | .error e => .error e
        | .ok parsed => jsGetField parsed "steps") : Except JsError Json) with
    | .ok v => .ok v
    | .error e => .error ⟨"Error", "Failed to create plan: " ++ e.message⟩

/-- Agent state relevant to the orchestrator: the `status` string and the
tool registry (identity, models, providers and logger do not affect the
verified behaviour). -/
structure Agent where
  status : String
  tools : Registry

/-- Outcome of one `run` call: the agent state afterwards, the full event
trace in emission order, and the returned report or the (re)thrown error. -/
structure RunOut where
  agent : Agent
  events : List Ev
  result : Except JsError Json

/-- Source `run(task)`: guard on `status !== "idle"` (throwing `new
Error("Agent is already running a task")` before any mutation or event),
then set status to `running`, emit `taskStart`, and inside `try` call
`createPlan` and `executePlan`; both on success and in `catch` the status
is set back to `"idle"` and `taskComplete` resp. `taskFailed` is emitted
(the error being rethrown).  The fresh `taskId` (a uuid) is an oracle
parameter. -/
def run (a : Agent) (o : Oracle) (taskId : String) (task : Task) : RunOut :=
  if a.status ≠ "idle" then
    ⟨a, [], .error ⟨"Error", "Agent is already running a task"⟩⟩
  else
    match createPlan o with
    | .error e =>
      ⟨{ a with status := "idle" },
       [Ev.taskStart taskId task.objective, Ev.taskFailed taskId e.message],
       .error e⟩
    | .ok plan =>
      match executePlan a.tools o task plan with
      | (evs, _, .error e) =>
        ⟨{ a with status := "idle" },
         Ev.taskStart taskId task.objective :: evs ++ [Ev.taskFailed taskId e.message],
         .error e⟩
      | (evs, _, .ok result) =>
        ⟨{ a with status := "idle" },
         Ev.taskStart taskId task.objective :: evs ++ [Ev.taskComplete taskId result],
         .ok result⟩

/-- Handler of the built-in `nftCreate` tool: destructures `metadata` off
the parameters (throwing on a null/undefined parameters object, as JS
destructuring does), calls `this.executeTool("ipfsStore", \x7bcontent:
metadata, type: "metadata"\x7d)`, returns the storage result unchanged if
its `success` is falsy, and otherwise returns the synthetic mint receipt.
`tokenId` and `txHash` model the two `Math.random()` draws. -/
def nftCreateHandler (tools : Registry) (tokenId : Int) (txHash : String) (params : Json) :
    Except JsError Json :=
  match jsGetField params "metadata" with
  | .error e => .error e
  | .ok metadata =>
    match executeTool tools "ipfsStore"
        (Json.obj [("content", metadata), ("type", Json.str "metadata")]) with
    | .error e => .error e
    | .ok ipfsResult =>
      match jsGetField ipfsResult "success" with
      | .error e => .error e
      | .ok s =>
        if truthy s then
          match jsGetField ipfsResult "url" with
          | .error e => .error e
          | .ok url =>
            .ok (Json.obj [("success", Json.bool true), ("tokenId", Json.num tokenId),
                           ("metadataUri", url), ("txHash", Json.str txHash)])
        else
          .ok ipfsResult

/-- Steps carried by the `stepStart` events of a trace, in order. -/
def stepStarts (evs : List Ev) : List Json :=
  evs.filterMap fun ev =>
    match ev with
    | .stepStart s => some s
    | _ => none

/-- Pairs (step, result) carried by the `stepComplete` events of a trace,
in order. -/
def stepCompletions (evs : List Ev) : List (Json × Json) :=
  evs.filterMap fun ev =>
    match ev with
    | .stepComplete s r => some (s, r)
    | _ => none

/-- Canonical alternating trace of a list of completed steps: for each pair
a `stepStart` immediately followed by its `stepComplete`. -/
def interleave (l : List (Json × Json)) : List Ev :=
  l.flatMap fun p => [Ev.stepStart p.1, Ev.stepComplete p.1 p.2]

/-- Replay of the result-recording assignments `results[step.id] =
stepResult` over a list of (step, result) pairs, starting from `res`. -/
def recordResults (res : Results) (l : List (Json × Json)) : Results :=
  l.foldl (fun acc p => mapSet acc (keyOf (getFieldD p.1 "id")) p.2) res

@[simp] theorem stepStarts_nil : stepStarts [] = [] := rfl

@[simp] theorem stepStarts_cons_start (s : Json) (evs : List Ev) :
    stepStarts (Ev.stepStart s :: evs) = s :: stepStarts evs := rfl

@[simp] theorem stepStarts_cons_complete (s r : Json) (evs : List Ev) :
    stepStarts (Ev.stepComplete s r :: evs) = stepStarts evs := rfl

@[simp] theorem stepStarts_cons_failed (s : Json) (m : String) (evs : List Ev) :
    stepStarts (Ev.stepFailed s m :: evs) = stepStarts evs := rfl

@[simp] theorem stepStarts_cons_taskStart (tid obj : String) (evs : List Ev) :
    stepStarts (Ev.taskStart tid obj :: evs) = stepStarts evs := rfl

@[simp] theorem stepStarts_cons_taskComplete (tid : String) (r : Json) (evs : List Ev) :
    stepStarts (Ev.taskComplete tid r :: evs) = stepStarts evs := rfl

@[simp] theorem stepStarts_cons_taskFailed (tid m : String) (evs : List Ev) :
    stepStarts (Ev.taskFailed tid m :: evs) = stepStarts evs := rfl

@[simp] theorem stepCompletions_nil : stepCompletions [] = [] := rfl

@[simp] theorem stepCompletions_cons_start (s : Json) (evs : List Ev) :
    stepCompletions (Ev.stepStart s :: evs) = stepCompletions evs := rfl

@[simp] theorem stepCompletions_cons_complete (s r : Json) (evs : List Ev) :
    stepCompletions (Ev.stepComplete s r :: evs) = (s, r) :: stepCompletions evs := rfl

@[simp] theorem stepCompletions_cons_failed (s : Json) (m : String) (evs : List Ev) :
    stepCompletions (Ev.stepFailed s m :: evs) = stepCompletions evs := rfl

@[simp] theorem interleave_nil : interleave [] = [] := rfl

@[simp] theorem interleave_cons (p : Json × Json) (l : List (Json × Json)) :
    interleave (p :: l) = Ev.stepStart p.1 :: Ev.stepComplete p.1 p.2 :: interleave l := rfl

@[simp] theorem recordResults_nil (res : Results) : recordResults res [] = res := rfl

@[simp] theorem recordResults_cons (res : Results) (p : Json × Json) (l : List (Json × Json)) :
    recordResults res (p :: l) =
      recordResults (mapSet res (keyOf (getFieldD p.1 "id")) p.2) l := rfl

theorem mapSet_cons_ne {α : Type} (p : String × α) (m : List (String × α)) (k : String)
    (v : α) (hp : p.1 ≠ k) : mapSet (p :: m) k v = p :: mapSet m k v := by
  simp only [mapSet, List.any_cons]
  by_cases hm : m.any fun q => q.1 = k
  · simp [hp, hm]
  · simp [hp, hm]

theorem mapGet_mapSet {α : Type} (m : List (String × α)) (k : String) (v : α) :
    mapGet (mapSet m k v) k = some v := by
  induction m with
  | nil => simp [mapSet, mapGet]
  | cons p rest ih =>
    by_cases hp : p.1 = k
    · simp [mapSet, mapGet, hp, List.find?]
    · rw [mapSet_cons_ne p rest k v hp]
      simpa [mapGet, List.find?, hp] using ih

theorem jsGetField_eq_getFieldD (v : Json) (k k2 : String) (w : Json)
    (h : jsGetField v k = .ok w) : jsGetField v k2 = .ok (getFieldD v k2) := by
  cases v <;> simp_all [jsGetField, getFieldD]

theorem planStepBody_call (tools : Registry) (o : Oracle) (task : Task) (step : Json)
    (results : Results) :
    (planStepBody tools o task step results).1 = none ∨
    (planStepBody tools o task step results).1 = some (step, results) := by
  unfold planStepBody
  rcases htool : jsGetField step "tool" with e | v
  · simp
  · cases v <;> simp [reasoningBranch]
    split <;> simp [reasoningBranch]

theorem reasoningBranch_key (o : Oracle) (step : Json) (results : Results) (r : Json)
    (key : String) (hid : jsGetField step "id" = .ok (getFieldD step "id"))
    (h : (reasoningBranch o step results).2 = .ok (r, key)) :
    key = keyOf (getFieldD step "id") := by
  unfold reasoningBranch at h
  rcases hr : executeReasoning o step results with e | rr <;> rw [hr] at h
  · simp at h
  · rw [hid] at h
    simp at h
    exact h.2.symm

theorem planStepBody_key (tools : Registry) (o : Oracle) (task : Task) (step : Json)
    (results : Results) (r : Json) (key : String)
    (h : (planStepBody tools o task step results).2 = .ok (r, key)) :
    key = keyOf (getFieldD step "id") := by
  unfold planStepBody at h
  rcases htool : jsGetField step "tool" with e | v <;> rw [htool] at h
  · simp at h
  · have hid : jsGetField step "id" = .ok (getFieldD step "id") :=
      jsGetField_eq_getFieldD step "tool" "id" v htool
    cases v <;> simp at h <;> try exact reasoningBranch_key o step results r key hid h
    rename_i s
    by_cases hc : s ≠ "" ∧ (mapGet tools s).isSome
    · rw [if_pos hc] at h
      simp at h
      rcases hp : jsGetField step "parameters" with e | pv <;> rw [hp] at h <;> simp at h
      rcases het : executeTool tools s
          (Json.obj (spreadFields pv ++ [("walletAddress", task.walletAddress)])) with e | rr <;>
        rw [het] at h <;> simp at h
      rw [hid] at h
      simp at h
      exact h.2.symm
    · rw [if_neg hc] at h
      exact reasoningBranch_key o step results r key hid h

/-! Concrete fixtures used by witnesses and counterexamples. -/

/-- Tool whose handler always throws. -/
def throwTool : ToolDef :=
  ⟨"boom", "always throws", fun _ => .error ⟨"Error", "kaboom"⟩⟩

/-- Registry holding only the throwing tool. -/
def registryBoom : Registry := [("boom", throwTool)]

/-- Step that invokes the throwing tool. -/
def stepBoom : Json := Json.obj [("id", Json.str "s1"), ("tool", Json.str "boom")]

/-- Step with no tool, executed through the reasoning fallback. -/
def stepReason : Json := Json.obj [("id", Json.str "s2"), ("description", Json.str "think")]

/-- Oracle whose planning call parses to an object with an empty `steps`
array, and whose reasoning and summary calls succeed with fixed text. -/
def oracleEmptyPlan : Oracle :=
  ⟨.ok (.ok (Json.obj [("steps", Json.arr [])])),
   fun _ _ => .ok "reasoned", fun _ _ => .ok "summary"⟩

/-- Idle agent with an empty registry. -/
def agentIdle : Agent := ⟨"idle", []⟩

/-- Agent currently running a task. -/
def agentBusy : Agent := ⟨"running", []⟩

/-- Demo task. -/
def taskDemo : Task := ⟨"demo objective", Json.undefined⟩

/-- Claim C3: for every registered tool name and every parameters object, a
handler that throws is converted by `executeTool` into the soft failure
`\x7bsuccess: false, error: message\x7d`, and a handler exception never
propagates out of `executeTool` (the only hard error `executeTool` can
produce is for an unregistered name). -/
theorem executeTool_handler_throw_soft (tools : Registry) (nm : String) (p : Json)
    (t : ToolDef) (e : JsError) :
    (mapGet tools nm = some t → t.handler p = .error e →
      executeTool tools nm p =
        .ok (Json.obj [("success", Json.bool false), ("error", Json.str e.message)]))
    ∧ (∀ e2, executeTool tools nm p = .error e2 → mapGet tools nm = none) := by
  constructor
  · intro ht he
    simp [executeTool, ht, he]
  · intro e2 h
    unfold executeTool at h
    rcases hm : mapGet tools nm with _ | t2 <;> rw [hm] at h
    simp at h
    rcases hh : t2.handler p with e3 | r <;> rw [hh] at h <;> simp at h

/-- Witness for C3: the concrete throwing tool is softened to
`\x7bsuccess: false, error: "kaboom"\x7d`. -/
theorem executeTool_handler_throw_soft_witness :
    executeTool registryBoom "boom" (Json.obj []) =
      .ok (Json.obj [("success", Json.bool false), ("error", Json.str "kaboom")]) :=
  (executeTool_handler_throw_soft registryBoom "boom" (Json.obj [])
    throwTool ⟨"Error", "kaboom"⟩).1 rfl rfl

/-- Claim C5, counterexample: on an unregistered name the thrown error is a
plain generic `Error` (runtime class name "Error") carrying a message, not
an error of a distinct `ToolNotFoundError` class. -/
theorem executeTool_not_found_counterexample :
    executeTool [] "searchWeb" Json.undefined = .error ⟨"Error", "Tool not found: searchWeb"⟩
    ∧ ("Error" : String) ≠ "ToolNotFoundError" :=
  ⟨rfl, by decide⟩

/-- Claim C5, amended: for every name absent from the registry and every
parameters object, `executeTool` fails with a hard error (a generic
`Error`, there being no distinct error class in the source) whose message
is `"Tool not found: <name>"`; it never returns a `\x7bsuccess:false\x7d`
soft failure for this case. -/
theorem executeTool_not_found_hard_error (tools : Registry) (nm : String) (p : Json)
    (h : mapGet tools nm = none) :
    executeTool tools nm p = .error ⟨"Error", "Tool not found: " ++ nm⟩ := by
  simp [executeTool, h]

/-- Witness for the amended C5 at a concrete unregistered name. -/
theorem executeTool_not_found_hard_error_witness :
    executeTool [] "foo" Json.undefined = .error ⟨"Error", "Tool not found: foo"⟩ :=
  executeTool_not_found_hard_error [] "foo" Json.undefined rfl

/-- Claim C9: registering two tool definitions with the same (nonempty)
name in sequence succeeds silently both times, and a lookup of that name
afterwards returns the later definition (last-write-wins). -/
theorem registerTool_overwrites (tools : Registry) (d1 d2 : ToolDef)
    (hname : d1.name = d2.name) (hne : d2.name ≠ "") :
    registerTool tools d1 = .ok (mapSet tools d1.name d1) ∧
    registerTool (mapSet tools d1.name d1) d2 =
      .ok (mapSet (mapSet tools d1.name d1) d2.name d2) ∧
    mapGet (mapSet (mapSet tools d1.name d1) d2.name d2) d2.name = some d2 := by
  refine ⟨?_, ?_, ?_⟩
  · simp [registerTool, hname, hne]
  · simp [registerTool, hne]
  · exact mapGet_mapSet _ _ _

/-- First of two same-named tool definitions. -/
def toolV1 : ToolDef := ⟨"dup", "first", fun _ => .ok (Json.str "v1")⟩

/-- Second of two same-named tool definitions. -/
def toolV2 : ToolDef := ⟨"dup", "second", fun _ => .ok (Json.str "v2")⟩

/-- Witness for C9 at two concrete same-named definitions. -/
theorem registerTool_overwrites_witness :
    registerTool [] toolV1 = .ok (mapSet [] toolV1.name toolV1) ∧
    registerTool (mapSet [] toolV1.name toolV1) toolV2 =
      .ok (mapSet (mapSet [] toolV1.name toolV1) toolV2.name toolV2) ∧
    mapGet (mapSet (mapSet [] toolV1.name toolV1) toolV2.name toolV2) toolV2.name =
      some toolV2 :=
  registerTool_overwrites [] toolV1 toolV2 rfl (by decide)

/-- Claim C6: an agent that starts in status `idle` ends in status `idle`
after `run`, on every path (plan-generation failure, step failure, or
success). -/
theorem run_returns_idle (a : Agent) (o : Oracle) (tid : String) (task : Task)
    (h : a.status = "idle") :
    (run a o tid task).agent.status = "idle" := by
  unfold run
  rw [if_neg (by simp [h])]
  split
  · rfl
  · split <;> rfl

/-- Witness for C6 at a concrete idle agent and oracle. -/
theorem run_returns_idle_witness :
    (run agentIdle oracleEmptyPlan "tid" taskDemo).agent.status = "idle" :=
  run_returns_idle agentIdle oracleEmptyPlan "tid" taskDemo rfl

/-- Claim C7: calling `run` while the status is not `idle` fails
immediately with the busy error, leaves the agent (status and registry)
unchanged, and emits no events. -/
theorem run_busy_guard (a : Agent) (o : Oracle) (tid : String) (task : Task)
    (h : a.status ≠ "idle") :
    run a o tid task = ⟨a, [], .error ⟨"Error", "Agent is already running a task"⟩⟩ := by
  unfold run
  rw [if_pos h]

/-- Witness for C7 at a concrete running agent. -/
theorem run_busy_guard_witness :
    run agentBusy oracleEmptyPlan "tid" taskDemo =
      ⟨agentBusy, [], .error ⟨"Error", "Agent is already running a task"⟩⟩ :=
  run_busy_guard agentBusy oracleEmptyPlan "tid" taskDemo (by decide)

/-- Claim C8: when the `nftCreate` handler's internal `ipfsStore` call
returns a result whose `success` is `false`, the handler short-circuits and
returns that storage result as its own result, unchanged and unwrapped. -/
theorem nftCreate_propagates_storage_failure (tools : Registry) (st : ToolDef)
    (params metadata r : Json) (tokenId : Int) (txHash : String)
    (hm : jsGetField params "metadata" = .ok metadata)
    (ht : mapGet tools "ipfsStore" = some st)
    (hh : st.handler (Json.obj [("content", metadata), ("type", Json.str "metadata")]) = .ok r)
    (hs : jsGetField r "success" = .ok (Json.bool false)) :
    nftCreateHandler tools tokenId txHash params = .ok r := by
  simp [nftCreateHandler, hm, executeTool, ht, hh, hs, truthy]

/-- Built-in storage tool stubbed to report a failure. -/
def ipfsStoreFail : ToolDef :=
  ⟨"ipfsStore", "store data on IPFS",
   fun _ => .ok (Json.obj [("success", Json.bool false), ("error", Json.str "ipfs down")])⟩

/-- Registry holding the failing storage tool. -/
def registryIpfsFail : Registry := [("ipfsStore", ipfsStoreFail)]

/-- Parameters object for a concrete mint call. -/
def mintParams : Json := Json.obj [("metadata", Json.obj [("name", Json.str "token")])]

/-- Witness for C8 at a concrete failing storage tool. -/
theorem nftCreate_propagates_storage_failure_witness :
    nftCreateHandler registryIpfsFail 7 "0xabc" mintParams =
      .ok (Json.obj [("success", Json.bool false), ("error", Json.str "ipfs down")]) :=
  nftCreate_propagates_storage_failure registryIpfsFail ipfsStoreFail mintParams
    (Json.obj [("name", Json.str "token")])
    (Json.obj [("success", Json.bool false), ("error", Json.str "ipfs down")])
    7 "0xabc" rfl rfl rfl rfl

/-- Claim C10: whenever `executePlan` returns a report, that report has
top-level `success = true` and carries the full accumulated results map,
regardless of the `success` values of the individual step results. -/
theorem executePlan_report_success (tools : Registry) (o : Oracle) (task : Task)
    (plan : Json) (j : Json) (h : (executePlan tools o task plan).2.2 = .ok j) :
    jsGetField j "success" = .ok (Json.bool true)
    ∧ (∀ steps rs content,
        iterableOf plan = some steps →
        (execSteps tools o task steps []).2.2 = .ok rs →
        o.summary task rs = .ok content →
        j = Json.obj [("success", Json.bool true), ("objective", Json.str task.objective),
                      ("summary", Json.str content), ("results", Json.obj rs)]
        ∧ jsGetField j "results" = .ok (Json.obj rs)) := by
  unfold executePlan at h
  rcases hit : iterableOf plan with _ | steps <;> rw [hit] at h <;> simp at h
  rcases he : (execSteps tools o task steps []).2.2 with e | rs <;> rw [he] at h <;> simp at h
  unfold createFinalReport at h
  rcases hs : o.summary task rs with e | content <;> rw [hs] at h <;> simp at h
  constructor
  · simp [h.symm, jsGetField, lastLookup]
  · intro steps2 rs2 content2 hit2 he2 hs2
    have hsteps : steps2 = steps := (Option.some.inj hit2).symm
    subst hsteps
    have hrs : rs2 = rs := (Except.ok.inj (he.symm.trans he2)).symm
    subst hrs
    have hcontent : content2 = content := (Except.ok.inj (hs.symm.trans hs2)).symm
    subst hcontent
    exact ⟨h.symm, by simp [h.symm, jsGetField, lastLookup]⟩

/-- Report produced by the one-step plan whose only step is the throwing
tool step: the step result is a soft failure yet the report succeeds. -/
def reportBoom : Json :=
  Json.obj [("success", Json.bool true), ("objective", Json.str "demo objective"),
            ("summary", Json.str "summary"),
            ("results", Json.obj [("s1",
               Json.obj [("success", Json.bool false), ("error", Json.str "kaboom")])])]

/-- Witness for C10: a one-step plan whose only step result is a soft
failure still yields a report with top-level `success = true` containing
that failing step result. -/
theorem executePlan_report_success_witness :
    jsGetField reportBoom "success" = .ok (Json.bool true)
    ∧ reportBoom = Json.obj [("success", Json.bool true),
        ("objective", Json.str taskDemo.objective), ("summary", Json.str "summary"),
        ("results", Json.obj [("s1",
           Json.obj [("success", Json.bool false), ("error", Json.str "kaboom")])])]
    ∧ jsGetField reportBoom "results" =
        .ok (Json.obj [("s1",
           Json.obj [("success", Json.bool false), ("error", Json.str "kaboom")])]) :=
  have h := executePlan_report_success registryBoom oracleEmptyPlan taskDemo
    (Json.arr [stepBoom]) reportBoom rfl
  ⟨h.1,
   (h.2 [stepBoom]
     [("s1", Json.obj [("success", Json.bool false), ("error", Json.str "kaboom")])]
     "summary" rfl rfl rfl).1,
   (h.2 [stepBoom]
     [("s1", Json.obj [("success", Json.bool false), ("error", Json.str "kaboom")])]
     "summary" rfl rfl rfl).2⟩

/-- Oracle whose planning call throws a JSON `SyntaxError` during parsing
(a malformed response body). -/
def oracleBadJson : Oracle :=
  ⟨.ok (.error ⟨"SyntaxError", "Unexpected token"⟩),
   fun _ _ => .ok "reasoned", fun _ _ => .ok "summary"⟩

/-- Oracle whose planning call parses into a well-formed JSON object that
has no `steps` field. -/
def oracleNoSteps : Oracle :=
  ⟨.ok (.ok (Json.obj [("plan", Json.str "no steps key")])),
   fun _ _ => .ok "reasoned", fun _ _ => .ok "summary"⟩

/-- Claim C2, counterexample: when the parsed planning response is an
object missing the `steps` field, `createPlan` does NOT fail — it returns
`undefined` — and the run fails only later, inside `executePlan`, with a
generic `TypeError` and not with a plan-generation error from
`createPlan`. -/
theorem createPlan_missing_steps_counterexample :
    createPlan oracleNoSteps = .ok Json.undefined
    ∧ (run agentIdle oracleNoSteps "tid" taskDemo).result =
        .error ⟨"TypeError", "plan is not iterable"⟩ :=
  ⟨rfl, rfl⟩

/-- Claim C2, amended: a malformed response body (a `JSON.parse` failure)
makes `createPlan` itself fail with the wrapped plan-generation error; but
a well-formed object response missing the `steps` field does not —
`createPlan` then returns `undefined`, and the run instead fails inside
`executePlan` with a `TypeError` (still before any step executes: no
`stepStart` is ever emitted). -/
theorem createPlan_parse_failure (o : Oracle) (e : JsError) (fs : List (String × Json))
    (a : Agent) (tid : String) (task : Task) :
    (o.planCall = .ok (.error e) →
      createPlan o = .error ⟨"Error", "Failed to create plan: " ++ e.message⟩)
    ∧ (o.planCall = .ok (.ok (Json.obj fs)) → lastLookup fs "steps" = none →
        createPlan o = .ok Json.undefined
        ∧ (a.status = "idle" →
            (run a o tid task).result = .error ⟨"TypeError", "plan is not iterable"⟩
            ∧ stepStarts (run a o tid task).events = [])) := by
  constructor
  · intro h1
    simp [createPlan, h1]
  · intro hp hs
    have hcp : createPlan o = .ok Json.undefined := by
      simp [createPlan, hp, jsGetField, hs]
    refine ⟨hcp, fun hidle => ?_⟩
    have hrun : run a o tid task =
        ⟨{ a with status := "idle" },
         [Ev.taskStart tid task.objective, Ev.taskFailed tid "plan is not iterable"],
         .error ⟨"TypeError", "plan is not iterable"⟩⟩ := by
      unfold run
      rw [if_neg (by simp [hidle]), hcp]
      simp [executePlan, iterableOf]
    rw [hrun]
    constructor
    · rfl
    · simp

/-- Witness for the amended C2: the malformed-body case fails inside
`createPlan`, and the missing-`steps` case returns `undefined` from
`createPlan` and fails later in `executePlan` with no step started. -/
theorem createPlan_parse_failure_witness :
    createPlan oracleBadJson = .error ⟨"Error", "Failed to create plan: Unexpected token"⟩
    ∧ (createPlan oracleNoSteps = .ok Json.undefined
       ∧ ((run agentIdle oracleNoSteps "tid" taskDemo).result =
            .error ⟨"TypeError", "plan is not iterable"⟩
          ∧ stepStarts (run agentIdle oracleNoSteps "tid" taskDemo).events = [])) :=
  ⟨(createPlan_parse_failure oracleBadJson ⟨"SyntaxError", "Unexpected token"⟩ []
      agentIdle "tid" taskDemo).1 rfl,
   (fun h => ⟨h.1, h.2 rfl⟩)
     ((createPlan_parse_failure oracleNoSteps ⟨"SyntaxError", "Unexpected token"⟩
        [("plan", Json.str "no steps key")] agentIdle "tid" taskDemo).2 rfl rfl)⟩

/-- Oracle whose plan is the two-step plan (throwing tool step, then
reasoning step). -/
def oracleTwoSteps : Oracle :=
  ⟨.ok (.ok (Json.obj [("steps", Json.arr [stepBoom, stepReason])])),
   fun _ _ => .ok "reasoned", fun _ _ => .ok "summary"⟩

/-- Idle agent whose registry holds the throwing tool. -/
def agentBoom : Agent := ⟨"idle", registryBoom⟩

/-- Soft failure produced by `executeTool` for the throwing tool. -/
def softKaboom : Json :=
  Json.obj [("success", Json.bool false), ("error", Json.str "kaboom")]

/-- Result produced by the reasoning fallback with the fixed oracle. -/
def reasonedResult : Json :=
  Json.obj [("success", Json.bool true), ("reasoning", Json.str "reasoned")]

/-- Report produced by the two-step run in which step 1's tool handler
threw. -/
def reportTwo : Json :=
  Json.obj [("success", Json.bool true), ("objective", Json.str "demo objective"),
            ("summary", Json.str "summary"),
            ("results", Json.obj [("s1", softKaboom), ("s2", reasonedResult)])]

/-- Claim C4, counterexample: in a two-step plan whose first step names a
registered tool whose handler throws, execution does NOT stop: the throw is
softened by `executeTool`, step 1 emits `stepComplete` (not `stepFailed`),
step 2 is started and completes, the results map contains entries for both
steps, and `run` returns the report instead of re-raising. -/
theorem run_tool_throw_counterexample :
    (run agentBoom oracleTwoSteps "tid" taskDemo).events =
      [Ev.taskStart "tid" "demo objective",
       Ev.stepStart stepBoom, Ev.stepComplete stepBoom softKaboom,
       Ev.stepStart stepReason, Ev.stepComplete stepReason reasonedResult,
       Ev.taskComplete "tid" reportTwo]
    ∧ (run agentBoom oracleTwoSteps "tid" taskDemo).result = .ok reportTwo :=
  ⟨rfl, rfl⟩

/-- Claim C4, amended: in a two-step plan whose first step names a
registered tool whose handler throws, `executeTool` converts the throw into
the soft failure `\x7bsuccess: false, error: message\x7d`; step 1 completes
with that soft result (no `stepFailed`, no re-raise at this step), the soft
result is recorded under step 1's id before step 2 begins, and step 2 is
then started. -/
theorem execSteps_tool_throw_continues (tools : Registry) (o : Oracle) (task : Task)
    (s1 s2 pv idv : Json) (nm : String) (t : ToolDef) (e : JsError)
    (htool : jsGetField s1 "tool" = .ok (Json.str nm))
    (hnm : nm ≠ "")
    (hreg : mapGet tools nm = some t)
    (hpv : jsGetField s1 "parameters" = .ok pv)
    (hthrow : t.handler
        (Json.obj (spreadFields pv ++ [("walletAddress", task.walletAddress)])) = .error e)
    (hid : jsGetField s1 "id" = .ok idv) :
    execSteps tools o task [s1, s2] [] =
      (Ev.stepStart s1 ::
         Ev.stepComplete s1
           (Json.obj [("success", Json.bool false), ("error", Json.str e.message)]) ::
         (execSteps tools o task [s2]
            [(keyOf idv,
              Json.obj [("success", Json.bool false), ("error", Json.str e.message)])]).1,
       (execSteps tools o task [s2]
          [(keyOf idv,
            Json.obj [("success", Json.bool false), ("error", Json.str e.message)])]).2.1,
       (execSteps tools o task [s2]
          [(keyOf idv,
            Json.obj [("success", Json.bool false), ("error", Json.str e.message)])]).2.2)
    ∧ (execSteps tools o task [s2]
         [(keyOf idv,
           Json.obj [("success", Json.bool false), ("error", Json.str e.message)])]).1.take 1 =
        [Ev.stepStart s2] := by
  have hpb : planStepBody tools o task s1 [] =
      (none, .ok (Json.obj [("success", Json.bool false), ("error", Json.str e.message)],
                  keyOf idv)) := by
    simp [planStepBody, htool, hreg, hnm, hpv, executeTool, hthrow, hid]
  constructor
  · simp [execSteps, hpb, mapSet]
  · rcases h2 : (planStepBody tools o task s2
        [(keyOf idv,
          Json.obj [("success", Json.bool false), ("error", Json.str e.message)])]).2
        with e2 | pr
    · simp [execSteps, h2]
    · obtain ⟨r2, k2⟩ := pr
      simp [execSteps, h2]

/-- Witness for the amended C4 at the concrete throwing tool and reasoning
step. -/
theorem execSteps_tool_throw_continues_witness :
    execSteps registryBoom oracleTwoSteps taskDemo [stepBoom, stepReason] [] =
      (Ev.stepStart stepBoom ::
         Ev.stepComplete stepBoom
           (Json.obj [("success", Json.bool false), ("error", Json.str "kaboom")]) ::
         (execSteps registryBoom oracleTwoSteps taskDemo [stepReason]
            [(keyOf (Json.str "s1"),
              Json.obj [("success", Json.bool false), ("error", Json.str "kaboom")])]).1,
       (execSteps registryBoom oracleTwoSteps taskDemo [stepReason]
          [(keyOf (Json.str "s1"),
            Json.obj [("success", Json.bool false), ("error", Json.str "kaboom")])]).2.1,
       (execSteps registryBoom oracleTwoSteps taskDemo [stepReason]
          [(keyOf (Json.str "s1"),
            Json.obj [("success", Json.bool false), ("error", Json.str "kaboom")])]).2.2)
    ∧ (execSteps registryBoom oracleTwoSteps taskDemo [stepReason]
         [(keyOf (Json.str "s1"),
           Json.obj [("success", Json.bool false), ("error", Json.str "kaboom")])]).1.take 1 =
        [Ev.stepStart stepReason] :=
  execSteps_tool_throw_continues registryBoom oracleTwoSteps taskDemo
    stepBoom stepReason Json.undefined (Json.str "s1") "boom" throwTool ⟨"Error", "kaboom"⟩
    rfl (by decide) rfl rfl rfl rfl

theorem execSteps_trace (tools : Registry) (o : Oracle) (task : Task) :
    ∀ (steps : List Json) (res : Results) (evs : List Ev)
      (calls : List (Json × Results)) (out : Except JsError Results),
      execSteps tools o task steps res = (evs, calls, out) →
      (stepCompletions evs).map Prod.fst = steps.take (stepCompletions evs).length
      ∧ (evs = interleave (stepCompletions evs)
         ∨ ∃ s msg, steps.get? (stepCompletions evs).length = some s
             ∧ evs = interleave (stepCompletions evs) ++ [Ev.stepStart s, Ev.stepFailed s msg])
      ∧ (∀ rs, out = .ok rs → (stepCompletions evs).length = steps.length
           ∧ rs = recordResults res (stepCompletions evs))
      ∧ (∀ c ∈ calls, ∃ k, steps.get? k = some c.1
           ∧ c.2 = recordResults res ((stepCompletions evs).take k)) := by
  intro steps
  induction steps with
  | nil =>
    intro res evs calls out h
    simp only [execSteps, Prod.mk.injEq] at h
    obtain ⟨h1, h2, h3⟩ := h
    subst h1; subst h2; subst h3
    refine ⟨by simp, Or.inl (by simp), ?_, by simp⟩
    intro rs hrs
    exact ⟨by simp, by simpa using (Except.ok.inj hrs).symm⟩
  | cons s rest ih =>
    intro res evs calls out h
    simp only [execSteps] at h
    rcases hpb : (planStepBody tools o task s res).2 with e | pr
    · rw [hpb] at h
      simp only [Prod.mk.injEq] at h
      obtain ⟨h1, h2, h3⟩ := h
      subst h1; subst h2; subst h3
      refine ⟨by simp, ?_, ?_, ?_⟩
      · exact Or.inr ⟨s, e.message, by simp, by simp⟩
      · intro rs hrs
        simp at hrs
      · intro c hc
        rcases planStepBody_call tools o task s res with hno | hsome
        · rw [hno] at hc
          simp at hc
        · rw [hsome] at hc
          simp at hc
          subst hc
          exact ⟨0, by simp, by simp⟩
    · obtain ⟨r, key⟩ := pr
      rw [hpb] at h
      simp only [Prod.mk.injEq] at h
      obtain ⟨h1, h2, h3⟩ := h
      have hkey : key = keyOf (getFieldD s "id") :=
        planStepBody_key tools o task s res r key hpb
      obtain ⟨ih1, ih2, ih3, ih4⟩ :=
        ih (mapSet res key r)
          (execSteps tools o task rest (mapSet res key r)).1
          (execSteps tools o task rest (mapSet res key r)).2.1
          (execSteps tools o task rest (mapSet res key r)).2.2 rfl
      subst h1; subst h2; subst h3
      refine ⟨?_, ?_, ?_, ?_⟩
      · simpa using ih1
      · rcases ih2 with hleft | ⟨s2, msg, hget, heq⟩
        · exact Or.inl (by simp [hleft.symm])
        · refine Or.inr ⟨s2, msg, by simpa using hget, ?_⟩
          simp [heq.symm]
      · intro rs hrs
        obtain ⟨hlen, hrec⟩ := ih3 rs hrs
        refine ⟨by simpa using hlen, ?_⟩
        simpa [hkey] using hrec
      · intro c hc
        simp only [List.mem_append] at hc
        rcases hc with hc | hc
        · rcases planStepBody_call tools o task s res with hno | hsome
          · rw [hno] at hc
            simp at hc
          · rw [hsome] at hc
            simp at hc
            subst hc
            exact ⟨0, by simp, by simp⟩
        · obtain ⟨k, hget, hrec⟩ := ih4 c hc
          refine ⟨k + 1, by simpa using hget, ?_⟩
          simpa [hkey] using hrec

/-- Claim C1: `executePlan` executes the steps strictly in plan order — the
trace is an alternation of `stepStart`/`stepComplete` pairs whose steps are
exactly an initial segment of the plan (all of it on success, with at most
a trailing `stepStart`/`stepFailed` pair for the first failing step) — each
completed step's result being recorded under `step.id` before the next step
begins; the prior results passed to the reasoning fallback invoked at the
k-th step are exactly the recorded results of the k earlier completed
steps, and on success the final results map is the record of all step
results. -/
theorem executePlan_sequential_priorResults (tools : Registry) (o : Oracle) (task : Task)
    (steps : List Json) (evs : List Ev) (calls : List (Json × Results))
    (out : Except JsError Results)
    (h : execSteps tools o task steps [] = (evs, calls, out)) :
    (stepCompletions evs).map Prod.fst = steps.take (stepCompletions evs).length
    ∧ (evs = interleave (stepCompletions evs)
       ∨ ∃ s msg, steps.get? (stepCompletions evs).length = some s
           ∧ evs = interleave (stepCompletions evs) ++ [Ev.stepStart s, Ev.stepFailed s msg])
    ∧ (∀ rs, out = .ok rs → (stepCompletions evs).length = steps.length
         ∧ rs = recordResults [] (stepCompletions evs))
    ∧ (∀ c ∈ calls, ∃ k, steps.get? k = some c.1
         ∧ c.2 = recordResults [] ((stepCompletions evs).take k)) :=
  execSteps_trace tools o task steps [] evs calls out h

/-- Tool that succeeds with a fixed payload. -/
def okTool : ToolDef :=
  ⟨"fetch", "fetch data", fun _ => .ok (Json.obj [("success", Json.bool true), ("data", Json.num 42)])⟩

/-- Registry holding the succeeding tool. -/
def registryFetch : Registry := [("fetch", okTool)]

/-- Step invoking the succeeding tool. -/
def stepFetch : Json := Json.obj [("id", Json.str "s1"), ("tool", Json.str "fetch")]

/-- Result of the succeeding tool step. -/
def r1W : Json := Json.obj [("success", Json.bool true), ("data", Json.num 42)]

/-- Event trace of the concrete two-step plan (tool step then reasoning
step). -/
def evsW : List Ev :=
  [Ev.stepStart stepFetch, Ev.stepComplete stepFetch r1W,
   Ev.stepStart stepReason, Ev.stepComplete stepReason reasonedResult]

/-- Reasoning-fallback calls of the concrete two-step plan: one call, for
step 2, seeing exactly step 1's recorded result. -/
def callsW : List (Json × Results) := [(stepReason, [("s1", r1W)])]

/-- Final results map of the concrete two-step plan. -/
def rsW : Results := [("s1", r1W), ("s2", reasonedResult)]

/-- Witness for C1: the trace properties at a concrete two-step plan, whose
reasoning fallback at step 2 sees exactly step 1's result keyed by its
id. -/
theorem executePlan_sequential_priorResults_witness :
    (stepCompletions evsW).map Prod.fst = [stepFetch, stepReason].take (stepCompletions evsW).length
    ∧ (evsW = interleave (stepCompletions evsW)
       ∨ ∃ s msg, [stepFetch, stepReason].get? (stepCompletions evsW).length = some s
           ∧ evsW = interleave (stepCompletions evsW) ++ [Ev.stepStart s, Ev.stepFailed s msg])
    ∧ (∀ rs, (Except.ok rsW : Except JsError Results) = .ok rs →
         (stepCompletions evsW).length = [stepFetch, stepReason].length
         ∧ rs = recordResults [] (stepCompletions evsW))
    ∧ (∀ c ∈ callsW, ∃ k, [stepFetch, stepReason].get? k = some c.1
         ∧ c.2 = recordResults [] ((stepCompletions evsW).take k)) :=
  executePlan_sequential_priorResults registryFetch oracleEmptyPlan taskDemo
    [stepFetch, stepReason] evsW callsW (.ok rsW) rfl

end AIAgent
